import Mathlib

/-!
Shallow embedding of `src/components/dust-input.tsx` (the type-dust widget).

Numbers are modelled by the rationals: every arithmetic operation the
component performs (addition, subtraction, multiplication by constants,
division by a particle's lifespan) is exact on the inputs the claims are
about, so no floating-point subtleties arise. Calls to the environment's
random generator (`Math.random()`, which yields a value in `[0, 1)`) are
modelled by explicit parameters: a stream of draws supplied to the
function that consumes them.
-/

namespace TypeDust

/-- Particle record, mirroring the `Particle` interface of dust-input.tsx. -/
structure Particle where
  x : ℚ
  y : ℚ
  vx : ℚ
  vy : ℚ
  alpha : ℚ
  size : ℚ
  lifespan : ℚ
  color : String
deriving Repr, DecidableEq

/-- Configuration record, mirroring the `particleSettings` object literal. -/
structure ParticleSettings where
  size : ℚ
  speed : ℚ
  wind : ℚ
  animationOffsetLeft : ℚ
  numberOfParticles : ℕ
  lifespan : ℚ
  fadeSpeed : ℚ
  colors : List String
deriving Repr

/-- The concrete settings of dust-input.tsx (size 1.25 is the rational 5/4). -/
def particleSettings : ParticleSettings :=
  { size := 5 / 4
    speed := 5
    wind := 1
    animationOffsetLeft := 25
    numberOfParticles := 120
    lifespan := 120
    fadeSpeed := 2
    colors := ["#000000", "#969696", "#333333", "#404040", "#2e2e2e", "#dbdbdb"] }

/-- The five `Math.random()` draws one particle consumes in `createParticles`,
in source order: position x, position y, velocity x, velocity y, color index. -/
structure Rand where
  rx : ℚ
  ry : ℚ
  rvx : ℚ
  rvy : ℚ
  rcolor : ℚ
deriving Repr, DecidableEq

/-- Every draw lies in `[0, 1)`, the range of `Math.random()`. -/
def Rand.InRange (r : Rand) : Prop :=
  (0 ≤ r.rx ∧ r.rx < 1) ∧ (0 ≤ r.ry ∧ r.ry < 1) ∧ (0 ≤ r.rvx ∧ r.rvx < 1) ∧
    (0 ≤ r.rvy ∧ r.rvy < 1) ∧ (0 ≤ r.rcolor ∧ r.rcolor < 1)

instance (r : Rand) : Decidable r.InRange := by
  unfold Rand.InRange; infer_instance

/-- One particle built by the arrow function inside `createParticles`:
position is the origin jittered by `(Math.random() - 0.5) * 25` horizontally
and `(Math.random() - 0.5) * 5` vertically, `vx = Math.random() * speed + wind`,
`vy = (Math.random() - 0.5) * speed`, alpha 1, the configured size and
lifespan, and `colors[Math.floor(Math.random() * colors.length)]`. -/
def mkParticle (x y : ℚ) (r : Rand) : Particle :=
  { x := x + (r.rx - 1 / 2) * 25
    y := y + (r.ry - 1 / 2) * 5
    vx := r.rvx * particleSettings.speed + particleSettings.wind
    vy := (r.rvy - 1 / 2) * particleSettings.speed
    alpha := 1
    size := particleSettings.size
    lifespan := particleSettings.lifespan
    color := particleSettings.colors.getD
      (Nat.floor (r.rcolor * (particleSettings.colors.length : ℚ))) "" }

/-- The fresh batch `Array.from({length: count}, ...)` of `createParticles`:
`count` particles, the i-th built from the i-th block of random draws. -/
def newParticles (x y : ℚ) (count : ℕ) (rs : ℕ → Rand) : List Particle :=
  (List.range count).map fun i => mkParticle x y (rs i)

/-- createParticles(x, y, count): builds the fresh batch and pushes it onto
the particle store (`particlesRef.current.push(...newParticles)`). -/
def createParticles (x y : ℚ) (count : ℕ) (rs : ℕ → Rand)
    (store : List Particle) : List Particle :=
  store ++ newParticles x y count rs

/-- The per-particle physics step of `animate`'s `.map` callback:
`p.x += p.vx; p.y += p.vy + (Math.random() - 0.5) * 0.5;
p.alpha -= fadeSpeed / p.lifespan; p.size *= 0.99`.
The jitter draw `j` is the `Math.random()` value for this particle. -/
def updateParticle (p : Particle) (j : ℚ) : Particle :=
  { p with
    x := p.x + p.vx
    y := p.y + p.vy + (j - 1 / 2) * (1 / 2)
    alpha := p.alpha - particleSettings.fadeSpeed / p.lifespan
    size := p.size * (99 / 100) }

/-- The `.map` pass of `animate` applied to the whole store, consuming one
jitter draw per particle in order. -/
def updateAll : List Particle → (ℕ → ℚ) → List Particle
  | [], _ => []
  | p :: ps, js => updateParticle p (js 0) :: updateAll ps fun n => js (n + 1)

/-- The map-then-filter pass of `animate`: each particle is advanced, and the
callback returns the particle when `p.alpha > 0` and null otherwise; the
`.filter` keeps exactly the non-null (surviving) particles. -/
def tickParticles (ps : List Particle) (js : ℕ → ℚ) : List Particle :=
  (updateAll ps js).filter fun p => decide (0 < p.alpha)

/-- Canvas as `animate` and `resizeCanvas` see it: logical drawing dimensions
plus whether `getContext('2d')` yields a context. -/
structure Canvas where
  width : ℚ
  height : ℚ
  ctxOk : Bool
deriving Repr, DecidableEq

/-- State touched by the animation loop: `canvasRef.current` (possibly null)
and `particlesRef.current`. -/
structure AnimState where
  canvas : Option Canvas
  particles : List Particle

/-- Observable outcome of one `animate` invocation: the store it leaves
behind, whether it called `requestAnimationFrame(animate)` again, and
whether it cleared (and hence touched) the drawing surface. -/
structure AnimResult where
  particles : List Particle
  rearmed : Bool
  cleared : Bool

/-- True when `canvasRef.current` is non-null and `getContext('2d')`
succeeds on it. -/
def ctxAvailable (s : AnimState) : Bool :=
  match s.canvas with
  | none => false
  | some c => c.ctxOk

/-- One invocation of `animate`: `if (!canvas) return; const ctx = ...;
if (!ctx) return;` — both early returns happen before the final
`requestAnimationFrame(animate)`, so neither re-arms. Otherwise the surface
is cleared, and when the store is non-empty it is advanced by the
map-then-filter pass; the invocation ends by re-arming. -/
def animate (s : AnimState) (js : ℕ → ℚ) : AnimResult :=
  match s.canvas with
  | none => { particles := s.particles, rearmed := false, cleared := false }
  | some c =>
    if c.ctxOk then
      { particles :=
          if 0 < s.particles.length then tickParticles s.particles js
          else s.particles
        rearmed := true
        cleared := true }
    else { particles := s.particles, rearmed := false, cleared := false }

/-- resizeCanvas: `canvas.width = window.innerWidth; canvas.height =
window.innerHeight` — it writes only the canvas dimensions. -/
def resizeCanvas (innerWidth innerHeight : ℚ) (s : AnimState) : AnimState :=
  { s with
    canvas := s.canvas.map fun c =>
      { c with width := innerWidth, height := innerHeight } }

/-- getTextWidth(text, font): when the offscreen 2d context is available,
return `measureText(text).width + animationOffsetLeft` clamped down to the
input field's rendered width; when it is unavailable, return 0. The
environment's measurement of the text under the current font is the
parameter `measured`, and `fieldWidth` is
`inputRef.current?.getBoundingClientRect().width ?? 0`. -/
def getTextWidth (ctxOk : Bool) (measured : ℚ) (fieldWidth : ℚ) : ℚ :=
  if ctxOk then
    let textWidth := measured + particleSettings.animationOffsetLeft
    if textWidth ≤ fieldWidth then textWidth else fieldWidth
  else 0

/-- Bounding rectangle of the input element, from getBoundingClientRect(). -/
structure Rect where
  left : ℚ
  top : ℚ
  width : ℚ
  height : ℚ
deriving Repr, DecidableEq

/-- Environment an input event carries: whether the offscreen measurement
context is obtainable, the measurement function (text to pixel width under
the input's computed font), the input's bounding rectangle, the field width
used for clamping, and the random stream for the burst. -/
structure InputEnv where
  measureCtxOk : Bool
  measure : String → ℚ
  rect : Rect
  fieldWidth : ℚ
  rands : ℕ → Rand

/-- Component state `handleInput` touches: the stored previous value
(`inputRef.current.dataset.previousValue`), whether `inputRef.current` is
non-null, and the particle store. -/
structure InputState where
  previousValue : String
  inputPresent : Bool
  particles : List Particle

/-- Spawn point of a burst for a given previous value (lines 119-127):
x is the input's left edge plus `getTextWidth` of the previous value with
its last character dropped; y is the input's vertical midpoint. -/
def spawnPoint (env : InputEnv) (previous : String) : ℚ × ℚ :=
  let deletedCharIndex := previous.length - 1
  let textWidth := getTextWidth env.measureCtxOk
    (env.measure (previous.take deletedCharIndex)) env.fieldWidth
  (env.rect.left + textWidth, env.rect.top + env.rect.height / 2)

/-- handleInput: when the current value is shorter than the stored previous
value and the character of the previous value at index `length - 1` is not
a space, spawn a burst of `numberOfParticles` particles at the spawn point;
in every case, when `inputRef.current` is non-null, record the current
value as the new previous value. In JavaScript `previousValue[idx]` is
undefined (hence not the space character) when the index is out of range;
`String.toList.get?` models that with `none`. -/
def handleInput (env : InputEnv) (current : String) (s : InputState) :
    InputState :=
  let previous := s.previousValue
  let s1 :=
    if current.length < previous.length then
      let deletedCharIndex := previous.length - 1
      let charToDelete := previous.toList.get? deletedCharIndex
      if charToDelete ≠ some ' ' then
        let pt := spawnPoint env previous
        let store := createParticles pt.1 pt.2
          particleSettings.numberOfParticles env.rands s.particles
        { s with particles := store }
      else s
    else s
  if s1.inputPresent then { s1 with previousValue := current } else s1

/-! ### Helper lemmas -/

theorem newParticles_length (x y : ℚ) (n : ℕ) (rs : ℕ → Rand) :
    (newParticles x y n rs).length = n := by
  simp [newParticles]

theorem createParticles_length (x y : ℚ) (n : ℕ) (rs : ℕ → Rand)
    (store : List Particle) :
    (createParticles x y n rs store).length = store.length + n := by
  simp [createParticles, newParticles]

theorem handleInput_particles (env : InputEnv) (current : String)
    (s : InputState) :
    (handleInput env current s).particles =
      if current.length < s.previousValue.length ∧
          s.previousValue.toList.get? (s.previousValue.length - 1) ≠ some ' '
      then
        createParticles (spawnPoint env s.previousValue).1
          (spawnPoint env s.previousValue).2
          particleSettings.numberOfParticles env.rands s.particles
      else s.particles := by
  unfold handleInput
  dsimp only
  split_ifs <;> first | rfl | tauto

theorem handleInput_inputPresent (env : InputEnv) (current : String)
    (s : InputState) :
    (handleInput env current s).inputPresent = s.inputPresent := by
  unfold handleInput
  dsimp only
  split_ifs <;> rfl

theorem updateAll_length (ps : List Particle) (js : ℕ → ℚ) :
    (updateAll ps js).length = ps.length := by
  induction ps generalizing js with
  | nil => rfl
  | cons p ps ih => simp [updateAll, ih]

theorem updateAll_get (ps : List Particle) (js : ℕ → ℚ) (i : ℕ)
    (h : i < ps.length) (h' : i < (updateAll ps js).length) :
    (updateAll ps js).get ⟨i, h'⟩ = updateParticle (ps.get ⟨i, h⟩) (js i) := by
  induction ps generalizing js i with
  | nil => exact absurd h (Nat.not_lt_zero i)
  | cons p ps ih =>
    cases i with
    | zero => rfl
    | succ n =>
      have hn : n < ps.length := Nat.lt_of_succ_lt_succ h
      have hn' : n < (updateAll ps fun k => js (k + 1)).length := by
        rw [updateAll_length]; exact hn
      exact ih (fun k => js (k + 1)) n hn hn'

/-- Particle used by the concrete witnesses below. -/
def testParticle : Particle :=
  { x := 3, y := 4, vx := 1, vy := -2, alpha := 1, size := 5 / 4,
    lifespan := 120, color := "#000000" }

/-! ### Claim theorems -/

/-- C1: `handleInput` fires a deletion burst (observable as strict growth of
the particle store) if and only if the current value is shorter than the
stored previous value and the character of the previous value at index
`length - 1` is not a space; in particular a non-shrinking input never
fires, and a previous value ending in a space never fires. -/
theorem handleInput_fires_burst_iff (env : InputEnv) (current : String)
    (s : InputState) :
    s.particles.length < (handleInput env current s).particles.length ↔
      current.length < s.previousValue.length ∧
        s.previousValue.toList.get? (s.previousValue.length - 1) ≠ some ' ' := by
  rw [handleInput_particles]
  by_cases h : current.length < s.previousValue.length ∧
      s.previousValue.toList.get? (s.previousValue.length - 1) ≠ some ' '
  · rw [if_pos h, createParticles_length]
    exact iff_of_true (by norm_num [particleSettings]) h
  · rw [if_neg h]
    exact iff_of_false (lt_irrefl _) h

/-- C8: after every invocation of `handleInput` on a mounted input (the ref
is non-null), the stored previous value equals the invocation's current
value, whether or not a burst fired. -/
theorem handleInput_records_previous (env : InputEnv) (current : String)
    (s : InputState) (h : s.inputPresent = true) :
    (handleInput env current s).previousValue = current := by
  unfold handleInput
  dsimp only
  split_ifs <;> simp_all

/-- C8 witness: a concrete invocation (previous "ab", current "a") records
"a" as the new previous value. -/
theorem handleInput_records_previous_witness :
    (handleInput
      { measureCtxOk := true, measure := fun _ => 10,
        rect := { left := 0, top := 0, width := 300, height := 40 },
        fieldWidth := 300, rands := fun _ => ⟨0, 0, 0, 0, 0⟩ }
      "a"
      { previousValue := "ab", inputPresent := true,
        particles := [] }).previousValue = "a" :=
  handleInput_records_previous _ "a" _ rfl

/-- C9: `resizeCanvas` never creates, destroys, or moves particles: one call
leaves the particle store (length and every field) unchanged, and so does any
sequence of calls folded over the state. -/
theorem resizeCanvas_preserves_particles (w h : ℚ) (s : AnimState) :
    (resizeCanvas w h s).particles = s.particles ∧
      ∀ calls : List (ℚ × ℚ),
        (calls.foldl (fun st c => resizeCanvas c.1 c.2 st) s).particles =
          s.particles := by
  refine ⟨rfl, ?_⟩
  intro calls
  induction calls generalizing s with
  | nil => rfl
  | cons c rest ih => simpa using ih (resizeCanvas c.1 c.2 s)

/-- C5: the physics pass of a tick updates every pre-tick particle by
exactly the claimed amounts: alpha drops by fadeSpeed divided by the
particle's own lifespan, size is multiplied by exactly 0.99, x advances by
vx, and y advances by vy plus a jitter lying in [-1/4, 1/4) when the draw
is a Math.random value. -/
theorem tick_physics (ps : List Particle) (js : ℕ → ℚ)
    (hjs : ∀ i, 0 ≤ js i ∧ js i < 1) (i : ℕ) (h : i < ps.length)
    (h' : i < (updateAll ps js).length) :
    ((updateAll ps js).get ⟨i, h'⟩).alpha =
        (ps.get ⟨i, h⟩).alpha -
          particleSettings.fadeSpeed / (ps.get ⟨i, h⟩).lifespan ∧
      ((updateAll ps js).get ⟨i, h'⟩).size = (ps.get ⟨i, h⟩).size * (99 / 100) ∧
      ((updateAll ps js).get ⟨i, h'⟩).x = (ps.get ⟨i, h⟩).x + (ps.get ⟨i, h⟩).vx ∧
      ∃ d, ((updateAll ps js).get ⟨i, h'⟩).y =
          (ps.get ⟨i, h⟩).y + (ps.get ⟨i, h⟩).vy + d ∧ -(1 / 4) ≤ d ∧ d < 1 / 4 := by
  rw [updateAll_get ps js i h h']
  refine ⟨rfl, rfl, rfl, (js i - 1 / 2) * (1 / 2), rfl, ?_, ?_⟩
  · nlinarith [(hjs i).1]
  · nlinarith [(hjs i).2]

/-- C5 witness: the tick applied to a one-particle store with draw 1/2. -/
theorem tick_physics_witness :
    ((updateAll [testParticle] fun _ => (1 : ℚ) / 2).get
        ⟨0, by rw [updateAll_length]; decide⟩).alpha =
      testParticle.alpha -
        particleSettings.fadeSpeed / testParticle.lifespan :=
  (tick_physics [testParticle] (fun _ => (1 : ℚ) / 2)
    (fun _ => by norm_num) 0 (by decide) (by rw [updateAll_length]; decide)).1

/-- C6: a particle survives the tick's culling pass exactly when its
post-update alpha is strictly positive (so alpha exactly 0 is removed), and
culling is the sole removal mechanism: burst creation only appends to the
store, resizing leaves it untouched, and the input handler only ever
appends. -/
theorem tick_cull_iff (ps : List Particle) (js : ℕ → ℚ) :
    (∀ q, q ∈ tickParticles ps js ↔ q ∈ updateAll ps js ∧ 0 < q.alpha) ∧
      (∀ (x y : ℚ) (n : ℕ) (rs : ℕ → Rand) (store : List Particle),
        createParticles x y n rs store = store ++ newParticles x y n rs) ∧
      (∀ (w h : ℚ) (s : AnimState), (resizeCanvas w h s).particles = s.particles) ∧
      (∀ (env : InputEnv) (current : String) (s : InputState),
        ∃ appended, (handleInput env current s).particles = s.particles ++ appended) := by
  refine ⟨?_, fun _ _ _ _ _ => rfl, fun _ _ _ => rfl, ?_⟩
  · intro q
    simp [tickParticles, List.mem_filter]
  · intro env current s
    rw [handleInput_particles]
    split
    · exact ⟨newParticles _ _ _ _, rfl⟩
    · exact ⟨[], (List.append_nil _).symm⟩

/-- C10: the tick's survivors are an order-preserving subsequence of the
per-particle updates, and an update never changes vx, vy, lifespan or
color — so every surviving particle keeps those fields and the survivors
keep their relative store order. -/
theorem tick_mutates_only_kinematics (ps : List Particle) (js : ℕ → ℚ) :
    (tickParticles ps js).Sublist (updateAll ps js) ∧
      ∀ i (h : i < ps.length) (h' : i < (updateAll ps js).length),
        ((updateAll ps js).get ⟨i, h'⟩).vx = (ps.get ⟨i, h⟩).vx ∧
          ((updateAll ps js).get ⟨i, h'⟩).vy = (ps.get ⟨i, h⟩).vy ∧
          ((updateAll ps js).get ⟨i, h'⟩).lifespan = (ps.get ⟨i, h⟩).lifespan ∧
          ((updateAll ps js).get ⟨i, h'⟩).color = (ps.get ⟨i, h⟩).color := by
  refine ⟨List.filter_sublist _, ?_⟩
  intro i h h'
  rw [updateAll_get ps js i h h']
  exact ⟨rfl, rfl, rfl, rfl⟩

/-- C10 witness: the one-particle store with draw 0. -/
theorem tick_mutates_only_kinematics_witness :
    (tickParticles [testParticle] fun _ => (0 : ℚ)).Sublist
        (updateAll [testParticle] fun _ => (0 : ℚ)) ∧
      ((updateAll [testParticle] fun _ => (0 : ℚ)).get
          ⟨0, by rw [updateAll_length]; decide⟩).vx = testParticle.vx :=
  ⟨(tick_mutates_only_kinematics [testParticle] fun _ => (0 : ℚ)).1,
    ((tick_mutates_only_kinematics [testParticle] fun _ => (0 : ℚ)).2 0
      (by decide) (by rw [updateAll_length]; decide)).1⟩

theorem getTextWidth_eq_min (measured fieldWidth : ℚ) :
    getTextWidth true measured fieldWidth =
      min (measured + particleSettings.animationOffsetLeft) fieldWidth := by
  unfold getTextWidth
  rw [if_pos rfl]
  dsimp only
  split_ifs with hle
  · exact (min_eq_left hle).symm
  · exact (min_eq_right (le_of_not_le hle)).symm

/-- Environment used by the concrete witnesses below: measurement context
available, every character 8 pixels wide, input at (10, 20), 300 wide and
40 tall. -/
def testEnv : InputEnv :=
  { measureCtxOk := true
    measure := fun t => 8 * (t.length : ℚ)
    rect := { left := 10, top := 20, width := 300, height := 40 }
    fieldWidth := 300
    rands := fun _ => ⟨0, 0, 0, 0, 0⟩ }

/-- Environment whose offscreen measurement context is unavailable. -/
def noCtxEnv : InputEnv :=
  { measureCtxOk := false
    measure := fun t => 8 * (t.length : ℚ)
    rect := { left := 10, top := 20, width := 300, height := 40 }
    fieldWidth := 300
    rands := fun _ => ⟨0, 0, 0, 0, 0⟩ }

/-- C2: with the measurement context available, the spawn point of a burst
is x = left edge + min(measured width of the previous value without its
last character + offset constant, field width) and y = the vertical
midpoint; hence spawn x never exceeds left edge + field width. -/
theorem spawnPoint_min_clamped (env : InputEnv) (previous : String)
    (h : env.measureCtxOk = true) :
    (spawnPoint env previous).1 =
        env.rect.left +
          min (env.measure (previous.take (previous.length - 1)) +
              particleSettings.animationOffsetLeft) env.fieldWidth ∧
      (spawnPoint env previous).2 = env.rect.top + env.rect.height / 2 ∧
      (spawnPoint env previous).1 ≤ env.rect.left + env.fieldWidth := by
  unfold spawnPoint
  dsimp only
  rw [h, getTextWidth_eq_min]
  exact ⟨rfl, rfl, add_le_add_left (min_le_right _ _) _⟩

/-- C2 witness: deleting the last character of "abc" in the test
environment spawns at x = 10 + min(8 * 2 + 25, 300) and y = 20 + 40 / 2. -/
theorem spawnPoint_min_clamped_witness :
    (spawnPoint testEnv "abc").1 =
        testEnv.rect.left +
          min (testEnv.measure ("abc".take ("abc".length - 1)) +
              particleSettings.animationOffsetLeft) testEnv.fieldWidth ∧
      (spawnPoint testEnv "abc").2 = testEnv.rect.top + testEnv.rect.height / 2 ∧
      (spawnPoint testEnv "abc").1 ≤ testEnv.rect.left + testEnv.fieldWidth :=
  spawnPoint_min_clamped testEnv "abc" rfl

/-- C3 counterexample: with the measurement context unavailable the spawn x
for previous value "ab" is the bare left edge 10, not the left edge plus
the 25 pixel offset constant: getTextWidth returns 0 outright, losing the
offset together with the measurement. -/
theorem spawnPoint_no_ctx_counterexample :
    (spawnPoint noCtxEnv "ab").1 = 10 ∧
      noCtxEnv.rect.left + particleSettings.animationOffsetLeft = 35 ∧
      (spawnPoint noCtxEnv "ab").1 ≠
        noCtxEnv.rect.left + particleSettings.animationOffsetLeft := by
  refine ⟨?_, ?_, ?_⟩ <;>
    norm_num [spawnPoint, getTextWidth, noCtxEnv, particleSettings]

/-- C3 amended: when the measurement context is unavailable, getTextWidth
degrades to returning zero, so the spawn point of a fired burst collapses
to exactly the input field's left edge (the offset constant is lost along
with the measurement), with y still at the vertical midpoint; no error is
surfaced. -/
theorem spawnPoint_no_ctx_collapses (env : InputEnv) (previous : String)
    (h : env.measureCtxOk = false) :
    (spawnPoint env previous).1 = env.rect.left ∧
      (spawnPoint env previous).2 = env.rect.top + env.rect.height / 2 := by
  unfold spawnPoint
  dsimp only
  rw [h]
  refine ⟨?_, rfl⟩
  norm_num [getTextWidth]

/-- C3 witness: the amended collapse at the concrete no-context
environment. -/
theorem spawnPoint_no_ctx_collapses_witness :
    (spawnPoint noCtxEnv "ab").1 = noCtxEnv.rect.left ∧
      (spawnPoint noCtxEnv "ab").2 =
        noCtxEnv.rect.top + noCtxEnv.rect.height / 2 :=
  spawnPoint_no_ctx_collapses noCtxEnv "ab" rfl

/-- C4 counterexample: an animate invocation with no canvas mounted returns
through the early `if (!canvas) return` before reaching
requestAnimationFrame, so it does not re-arm the per-frame callback —
refuting the claim that every invocation re-arms. -/
theorem animate_no_rearm_counterexample :
    (animate { canvas := none, particles := [] } fun _ => 0).rearmed = false :=
  rfl

/-- C4 amended: an animate invocation re-arms the per-frame callback if and
only if the canvas and its 2d context are available; when they are not, the
invocation returns without re-arming (so the scheduling loop terminates),
leaves the particle store untouched and does not touch the surface — a
silent no-op, never fatal. -/
theorem animate_rearm_iff (s : AnimState) (js : ℕ → ℚ) :
    (animate s js).rearmed = ctxAvailable s ∧
      (ctxAvailable s = false →
        (animate s js).particles = s.particles ∧
          (animate s js).cleared = false) := by
  unfold animate ctxAvailable
  cases s.canvas with
  | none => exact ⟨rfl, fun _ => ⟨rfl, rfl⟩⟩
  | some c =>
    cases hb : c.ctxOk with
    | false => simp [hb]
    | true => simp [hb]

/-- C4 witness: the amended behavior at a concrete unmounted state. -/
theorem animate_rearm_iff_witness :
    (animate { canvas := none, particles := [testParticle] }
          fun _ => (0 : ℚ)).particles = [testParticle] ∧
      (animate { canvas := none, particles := [testParticle] }
          fun _ => (0 : ℚ)).cleared = false :=
  (animate_rearm_iff { canvas := none, particles := [testParticle] }
    fun _ => (0 : ℚ)).2 rfl

/-- Random draws that are all exactly 0 — a legal Math.random outcome,
since Math.random yields values in the half-open range [0, 1). -/
def zeroRand : Rand := ⟨0, 0, 0, 0, 0⟩

/-- Random draws that are all exactly 1/2, for the witnesses below. -/
def halfRand : Rand := ⟨1 / 2, 1 / 2, 1 / 2, 1 / 2, 1 / 2⟩

/-- C7 counterexample: draws of 0 are legal Math.random outcomes, and then
the particle appended by create_burst sits exactly 12.5 left of the origin:
its horizontal jitter is -12.5, which is outside the claimed open interval
(-12.5, +12.5). -/
theorem createParticles_open_interval_counterexample :
    zeroRand.InRange ∧
      createParticles 100 50 1 (fun _ => zeroRand) [] =
        [mkParticle 100 50 zeroRand] ∧
      (mkParticle 100 50 zeroRand).x = 100 - 25 / 2 ∧
      ¬(100 - (25 : ℚ) / 2 < (mkParticle 100 50 zeroRand).x ∧
        (mkParticle 100 50 zeroRand).x < 100 + 25 / 2) := by
  refine ⟨by norm_num [Rand.InRange, zeroRand], rfl, ?_, ?_⟩
  · norm_num [mkParticle, zeroRand, particleSettings]
  · norm_num [mkParticle, zeroRand, particleSettings]

/-- C7 amended: create_burst appends exactly n particles (n = 0 is a
no-op), and with every draw in [0, 1) each appended particle has horizontal
jitter in the half-open interval [-12.5, +12.5), vertical jitter in
[-2.5, +2.5), vx in [wind, wind + speed) — a uniform draw from [0, speed)
plus the wind bias — vy in [-speed/2, +speed/2), alpha 1, the configured
base size and lifespan constant, and a color from the palette. -/
theorem createParticles_spec (x y : ℚ) (n : ℕ) (rs : ℕ → Rand)
    (store : List Particle) (hr : ∀ i, (rs i).InRange) :
    (createParticles x y n rs store).length = store.length + n ∧
      createParticles x y 0 rs store = store ∧
      createParticles x y n rs store = store ++ newParticles x y n rs ∧
      ∀ p ∈ newParticles x y n rs,
        (x - 25 / 2 ≤ p.x ∧ p.x < x + 25 / 2) ∧
          (y - 5 / 2 ≤ p.y ∧ p.y < y + 5 / 2) ∧
          (particleSettings.wind ≤ p.vx ∧
            p.vx < particleSettings.wind + particleSettings.speed) ∧
          (-(particleSettings.speed / 2) ≤ p.vy ∧
            p.vy < particleSettings.speed / 2) ∧
          p.alpha = 1 ∧ p.size = particleSettings.size ∧
          p.lifespan = particleSettings.lifespan ∧
          p.color ∈ particleSettings.colors := by
  refine ⟨createParticles_length x y n rs store, ?_, rfl, ?_⟩
  · simp [createParticles, newParticles]
  · intro p hp
    obtain ⟨i, hi, rfl⟩ : ∃ i, i < n ∧ mkParticle x y (rs i) = p := by
      simpa [newParticles] using hp
    obtain ⟨hx, hy, hvx, hvy, hc⟩ := hr i
    refine ⟨⟨?_, ?_⟩, ⟨?_, ?_⟩, ⟨?_, ?_⟩, ⟨?_, ?_⟩, rfl, rfl, rfl, ?_⟩
    · simp only [mkParticle]; nlinarith [hx.1]
    · simp only [mkParticle]; nlinarith [hx.2]
    · simp only [mkParticle]; nlinarith [hy.1]
    · simp only [mkParticle]; nlinarith [hy.2]
    · simp only [mkParticle, particleSettings]; nlinarith [hvx.1]
    · simp only [mkParticle, particleSettings]; nlinarith [hvx.2]
    · simp only [mkParticle, particleSettings]; nlinarith [hvy.1]
    · simp only [mkParticle, particleSettings]; nlinarith [hvy.2]
    · simp only [mkParticle]
      set k := Nat.floor ((rs i).rcolor * (particleSettings.colors.length : ℚ))
        with hkdef
      have hk : k < 6 := by
        rw [hkdef]
        refine (Nat.floor_lt (mul_nonneg hc.1 (by positivity))).2 ?_
        have h6 : (particleSettings.colors.length : ℚ) = 6 := by
          norm_num [particleSettings]
        rw [h6]
        push_cast
        nlinarith [hc.2]
      interval_cases k <;> decide

/-- C7 witness: one particle appended with all draws 1/2. -/
theorem createParticles_spec_witness :
    (createParticles 0 0 1 (fun _ => halfRand) []).length =
        ([] : List Particle).length + 1 ∧
      (mkParticle 0 0 halfRand).alpha = 1 ∧
      (mkParticle 0 0 halfRand).color ∈ particleSettings.colors := by
  have h := createParticles_spec 0 0 1 (fun _ => halfRand) []
    (fun _ => by norm_num [Rand.InRange, halfRand])
  have hmem : mkParticle 0 0 halfRand ∈ newParticles 0 0 1 fun _ => halfRand := by
    simp [newParticles]
  exact ⟨h.1, (h.2.2.2 _ hmem).2.2.2.2.1, (h.2.2.2 _ hmem).2.2.2.2.2.2.2⟩

end TypeDust
